import Mathlib

/-!
# droitrace: span creation, tag attachment and context injection

A shallow embedding of `trace.go` (package `droitrace`).  The file keeps the
names of the Go source.  The Go standard-library functions the helper calls
(`net.SplitHostPort`, `strconv.Atoi`) are embedded from the Go sources, and the
OpenTracing interfaces (`Tracer`, `Span`, `StartSpanOption`) are embedded as the
calls the helper makes on them.
-/

namespace droitrace

/-! ## Go strings and machine integers -/

/-- A Go string: its sequence of bytes, each byte a natural number below 256. -/
abbrev GoString := List Nat

/-- Bytes of an ASCII literal (one byte per character). -/
def bytes (s : String) : GoString := s.toList.map Char.toNat

/-- Go conversion `uint16(x)` of a signed integer: the low 16 bits. -/
def uint16 (x : Int) : Nat := (x % 65536).toNat

/-- Go conversion `int64(x)`: two's-complement wrap-around to 64 bits. -/
def int64 (x : Int) : Int := (x + 2 ^ 63) % 2 ^ 64 - 2 ^ 63

/-- Go conversion `int(x)` on a platform whose `int` has `intSize` bits. -/
def int (intSize : Nat) (x : Int) : Int :=
  (x + 2 ^ (intSize - 1)) % 2 ^ intSize - 2 ^ (intSize - 1)

/-- Width of the Go type `int`: `strconv.IntSize` is 32 or 64. -/
inductive Platform where
  | bits32
  | bits64
  deriving DecidableEq, Repr

/-- Value of `strconv.IntSize` on the platform. -/
def Platform.intSize : Platform → Nat
  | .bits32 => 32
  | .bits64 => 64

/-! ## `net.SplitHostPort` -/

/-- Go `bytealg.IndexByteString`: index of the first byte equal to `c`;
`none` stands for the Go result `-1`. -/
def IndexByteString : GoString → Nat → Option Nat
  | [], _ => none
  | b :: s, c => if b = c then some 0 else (IndexByteString s c).map (· + 1)

/-- Go `bytealg.LastIndexByteString`: index of the last byte equal to `c`;
`none` stands for the Go result `-1`. -/
def LastIndexByteString : GoString → Nat → Option Nat
  | [], _ => none
  | b :: s, c =>
    match LastIndexByteString s c with
    | some i => some (i + 1)
    | none => if b = c then some 0 else none

/-- The `Err` text of a Go `net.AddrError` returned by `SplitHostPort`. -/
inductive AddrError where
  | missingPort
  | tooManyColons
  | missingBracket
  | unexpectedOpen
  | unexpectedClose
  deriving DecidableEq, Repr

/-- The tail of Go `net.SplitHostPort` shared by both branches: the checks for
stray brackets in `hostport[j:]` and `hostport[k:]`, then `port = hostport[i+1:]`. -/
def splitTail (hostport host : GoString) (i j k : Nat) :
    GoString × GoString × Option AddrError :=
  if (IndexByteString (hostport.drop j) 91).isSome then
    ([], [], some .unexpectedOpen)
  else if (IndexByteString (hostport.drop k) 93).isSome then
    ([], [], some .unexpectedClose)
  else
    (host, hostport.drop (i + 1), none)

/-- Go `net.SplitHostPort(hostport)`: returns `(host, port, err)`.
Bytes: 58 is `:`, 91 is `[`, 93 is `]`. -/
def SplitHostPort (hostport : GoString) : GoString × GoString × Option AddrError :=
  match LastIndexByteString hostport 58 with
  | none => ([], [], some .missingPort)
  | some i =>
    if hostport.head? = some 91 then
      match IndexByteString hostport 93 with
      | none => ([], [], some .missingBracket)
      | some e =>
        if e + 1 = hostport.length then
          ([], [], some .missingPort)
        else if e + 1 = i then
          splitTail hostport ((hostport.take e).drop 1) i 1 (e + 1)
        else if hostport.get? (e + 1) = some 58 then
          ([], [], some .tooManyColons)
        else
          ([], [], some .missingPort)
    else
      let host := hostport.take i
      if (IndexByteString host 58).isSome then
        ([], [], some .tooManyColons)
      else
        splitTail hostport host i 0 0

/-! ## `strconv.Atoi` -/

/-- The `Err` field of a Go `strconv.NumError`: `ErrSyntax` or `ErrRange`. -/
inductive NumError where
  | syntaxError
  | rangeError
  deriving DecidableEq, Repr

/-- Go `strconv.lower(c)`: `c | ('x' - 'X')`. -/
def lower (c : Nat) : Nat := c ||| 32

/-- The digit loop of Go `strconv.ParseUint` at base 10 (the base `Atoi`
passes), from accumulator `n`.  `maxVal` is `1<<bitSize - 1`; the cutoff is
`maxUint64/10 + 1`; `uint64` additions wrap modulo `2^64`. -/
def parseUintLoop (maxVal : Nat) : GoString → Nat → Nat × Option NumError
  | [], n => (n, none)
  | c :: rest, n =>
    if 48 ≤ c ∧ c ≤ 57 then
      let d := c - 48
      if d ≥ 10 then (0, some .syntaxError)
      else if n ≥ (2 ^ 64 - 1) / 10 + 1 then (maxVal, some .rangeError)
      else
        let n10 := (n * 10) % 2 ^ 64
        let n1 := (n10 + d) % 2 ^ 64
        if n1 < n10 ∨ n1 > maxVal then (maxVal, some .rangeError)
        else parseUintLoop maxVal rest n1
    else if 97 ≤ lower c ∧ lower c ≤ 122 then
      let d := lower c - 97 + 10
      if d ≥ 10 then (0, some .syntaxError)
      else (0, some .syntaxError)
    else (0, some .syntaxError)

/-- Go `strconv.ParseUint(s, 10, 0)`: base 10, `bitSize` 0 meaning `IntSize`. -/
def ParseUint (intSize : Nat) (s : GoString) : Nat × Option NumError :=
  if s = [] then (0, some .syntaxError)
  else parseUintLoop (2 ^ intSize - 1) s 0

/-- Go `strconv.ParseInt(s, 10, 0)`.  Bytes: 43 is `+`, 45 is `-`. -/
def ParseInt (intSize : Nat) (s : GoString) : Int × Option NumError :=
  if s = [] then (0, some .syntaxError)
  else
    let neg := s.head? = some 45
    let s1 := if s.head? = some 43 then s.tail else if s.head? = some 45 then s.tail else s
    let r := ParseUint intSize s1
    if r.2.isSome ∧ r.2 ≠ some .rangeError then (0, r.2)
    else
      let cutoff := 2 ^ (intSize - 1)
      if ¬ neg ∧ r.1 ≥ cutoff then (int64 ((cutoff : Int) - 1), some .rangeError)
      else if neg ∧ r.1 > cutoff then (int64 (-(int64 (cutoff : Int))), some .rangeError)
      else
        let n := int64 r.1
        (if neg then int64 (-n) else n, none)

/-- The digit loop of the fast path of Go `strconv.Atoi`: `ch -= '0'` on a
byte wraps modulo 256; `none` stands for the syntax-error return. -/
def atoiFastLoop : GoString → Int → Option Int
  | [], n => some n
  | ch :: rest, n =>
    let ch1 := (ch + 256 - 48) % 256
    if ch1 > 9 then none
    else atoiFastLoop rest (n * 10 + ch1)

/-- Go `strconv.Atoi(s)`: returns `(value, err)`. -/
def Atoi (P : Platform) (s : GoString) : Int × Option NumError :=
  let sLen := s.length
  if (P.intSize = 32 ∧ (0 < sLen ∧ sLen < 10)) ∨
      (P.intSize = 64 ∧ (0 < sLen ∧ sLen < 19)) then
    let signed := s.head? = some 45 ∨ s.head? = some 43
    let s1 := if signed then s.tail else s
    if signed ∧ s1.length < 1 then (0, some .syntaxError)
    else
      match atoiFastLoop s1 0 with
      | none => (0, some .syntaxError)
      | some n => (if s.head? = some 45 then -n else n, none)
  else
    let r := ParseInt P.intSize s
    (int P.intSize r.1, r.2)

/-! ## OpenTracing interfaces, as the helper uses them -/

/-- An OpenTracing `SpanContext`: the identifiers that correlate spans. -/
structure SpanContext where
  traceID : Nat
  spanID : Nat
  deriving DecidableEq, Repr

/-- Go `opentracing.SpanReferenceType`. -/
inductive SpanReferenceType where
  | ChildOfRef
  | FollowsFromRef
  deriving DecidableEq, Repr

/-- Go `opentracing.SpanReference`; a nil `ReferencedContext` is `none`. -/
structure SpanReference where
  RefType : SpanReferenceType
  ReferencedContext : Option SpanContext
  deriving DecidableEq, Repr

/-- A tag value: a Go string or a `uint16`. -/
inductive TagValue where
  | str (s : GoString)
  | u16 (n : Nat)
  deriving DecidableEq, Repr

/-- One tag: key and value. -/
abbrev Tag := String × TagValue

/-- Go `opentracing.StartSpanOptions` (the fields the helper can set).  The
`Tags` map is kept as the list of its insertions, oldest first. -/
structure StartSpanOptions where
  References : List SpanReference
  Tags : List Tag
  deriving DecidableEq, Repr

/-- Go `opentracing.ChildOf(sc)`. -/
def ChildOf (sc : Option SpanContext) : SpanReference :=
  { RefType := .ChildOfRef, ReferencedContext := sc }

/-- Go `opentracing.FollowsFrom(sc)`. -/
def FollowsFrom (sc : Option SpanContext) : SpanReference :=
  { RefType := .FollowsFromRef, ReferencedContext := sc }

/-- Go `SpanReference.Apply`: the reference is appended unless its context is nil. -/
def SpanReference.Apply (r : SpanReference) (o : StartSpanOptions) : StartSpanOptions :=
  if r.ReferencedContext.isSome then { o with References := o.References ++ [r] } else o

/-- The options the helper passes to `StartSpan`: a span reference
(`opentracing.ChildOf`, `opentracing.FollowsFrom`) or `ext.RPCServerOption`. -/
inductive StartSpanOption where
  | reference (r : SpanReference)
  | rpcServer (clientContext : Option SpanContext)
  deriving DecidableEq, Repr

/-- Go `StartSpanOption.Apply`.  `ext.RPCServerOption(client)` applies
`ChildOf(client)` when `client` is not nil and then the tag `span.kind = server`. -/
def StartSpanOption.Apply : StartSpanOption → StartSpanOptions → StartSpanOptions
  | .reference r, o => r.Apply o
  | .rpcServer client, o =>
    let o1 := if client.isSome then (ChildOf client).Apply o else o
    { o1 with Tags := o1.Tags ++ [("span.kind", TagValue.str (bytes "server"))] }

/-- A Go `error` value returned by the tracer. -/
structure Error where
  msg : String
  deriving DecidableEq, Repr

/-- Go `http.Header`. -/
abbrev Header := List (String × List String)

/-- Go `opentracing.BuiltinFormat`. -/
inductive BuiltinFormat where
  | Binary
  | TextMap
  | HTTPHeaders
  deriving DecidableEq, Repr

/-- The tracer capability.  `mint` is the span context the tracer gives a span
started with a name and options; `Extract` returns `(context, err)`; `Inject`
returns the carrier after the call and the error. -/
structure Tracer where
  mint : String → StartSpanOptions → SpanContext
  Extract : BuiltinFormat → Header → Option SpanContext × Option Error
  Inject : SpanContext → BuiltinFormat → Header → Header × Option Error

/-- An OpenTracing span, recorded as the calls that made it: the tracer that
started it, the operation name and options of `StartSpan`, and the `SetTag`
calls made on it since, oldest first. -/
structure Span where
  tracer : Tracer
  operationName : String
  options : StartSpanOptions
  tags : List Tag

/-- Go `Span.Context()`. -/
def Span.Context (sp : Span) : SpanContext := sp.tracer.mint sp.operationName sp.options

/-- Go `Span.Tracer()`. -/
def Span.Tracer (sp : Span) : Tracer := sp.tracer

/-- Go `Span.SetTag(key, value)`. -/
def Span.SetTag (sp : Span) (key : String) (value : TagValue) : Span :=
  { sp with tags := sp.tags ++ [(key, value)] }

/-- All tags of a span: those of its start options, then those set later. -/
def Span.allTags (sp : Span) : List Tag := sp.options.Tags ++ sp.tags

/-- Go `Tracer.StartSpan(operationName, opts...)`: the options are applied in
order to an empty `StartSpanOptions`. -/
def Tracer.StartSpan (T : Tracer) (operationName : String) (opts : List StartSpanOption) : Span :=
  { tracer := T
    operationName := operationName
    options := opts.foldl (fun o opt => opt.Apply o) { References := [], Tags := [] }
    tags := [] }

/-- The same span with every reference given the relationship type `ty`. -/
def Span.withRefType (ty : SpanReferenceType) (sp : Span) : Span :=
  { sp with options :=
      { sp.options with
        References := sp.options.References.map (fun r => { r with RefType := ty }) } }

/-! ## Requests and call contexts -/

/-- Go `url.URL`: the `Host` field and the result of the method `String()`. -/
structure URL where
  Host : GoString
  String : GoString

/-- Go `http.Request`: the fields the helper reads or writes. -/
structure Request where
  Method : GoString
  URL : URL
  Header : Header

/-- A value stored in a call context: a span or anything else. -/
inductive Value where
  | span (sp : Span)
  | other (description : String)

/-- The `droictx.Context` interface: `Get(key)` returns a value or nil. -/
structure Context where
  Get : String → Option Value

/-- The process environment of the helper: the platform, the global tracer
(`opentracing.GlobalTracer()`) and the tags `SetDroiTagFromHeaders` derives
from a header. -/
structure Env where
  platform : Platform
  GlobalTracer : Tracer
  droiTags : Header → List Tag

/-! ## trace.go -/

/-- The call-context key of the parent span. -/
def ParentSpan : String := "parentSpan"

/-- Modelled from the spec: `SetDroiTagFromHeaders` is not among the sources;
it applies to the span the domain-specific tags derived from the request
headers, here the tags `E.droiTags h` in order. -/
def SetDroiTagFromHeaders (E : Env) (sp : Span) (h : Header) : Span :=
  (E.droiTags h).foldl (fun s t => s.SetTag t.1 t.2) sp

/-- Lines 131-144 of trace.go. -/
def attachSpanTags (E : Env) (sp : Span) (req : Request) : Span :=
  let sp1 := sp.SetTag "http.method" (.str req.Method)
  let sp2 := sp1.SetTag "http.url" (.str req.URL.String)
  let sp3 :=
    match SplitHostPort req.URL.Host with
    | (host, portString, none) =>
      let sp4 := sp2.SetTag "peer.hostname" (.str host)
      match Atoi E.platform portString with
      | (port, some _) => sp4.SetTag "peer.port" (.u16 (uint16 port))
      | (_, none) => sp4
    | (_, _, some _) => sp2.SetTag "peer.hostname" (.str req.URL.Host)
  SetDroiTagFromHeaders E sp3 req.Header

/-- Lines 55-69 of trace.go. -/
def CreateSpanFromReq (E : Env) (spanName : String) (req : Request) : Span :=
  let sp :=
    match E.GlobalTracer.Extract .HTTPHeaders req.Header with
    | (_, some _) => E.GlobalTracer.StartSpan spanName []
    | (wireContext, none) => E.GlobalTracer.StartSpan spanName [.rpcServer wireContext]
  attachSpanTags E sp req

/-- Lines 71-75 of trace.go. -/
def CreateRootSpan (E : Env) (spanName : String) (req : Request) : Span :=
  let sp := E.GlobalTracer.StartSpan spanName []
  attachSpanTags E sp req

/-- Lines 77-83 of trace.go. -/
def CreateChildSpan (E : Env) (spanName : String) (parentSpan : Span) (req : Request) : Span :=
  let sp := E.GlobalTracer.StartSpan spanName [.reference (ChildOf (some parentSpan.Context))]
  attachSpanTags E sp req

/-- Lines 85-102 of trace.go; a nil `ctx` is `none`. -/
def CreateChildSpanByContext (E : Env) (spanName : String) (ctx : Option Context)
    (req : Request) : Span :=
  match ctx with
  | none => CreateRootSpan E spanName req
  | some c =>
    match c.Get ParentSpan with
    | none => CreateRootSpan E spanName req
    | some parentSpanTmp =>
      match parentSpanTmp with
      | .other _ => CreateRootSpan E spanName req
      | .span parentSpan =>
        let sp := E.GlobalTracer.StartSpan spanName [.reference (ChildOf (some parentSpan.Context))]
        attachSpanTags E sp req

/-- Lines 104-110 of trace.go. -/
def CreateFollowFromSpan (E : Env) (spanName : String) (parentSpan : Span) (req : Request) : Span :=
  let sp := E.GlobalTracer.StartSpan spanName [.reference (FollowsFrom (some parentSpan.Context))]
  attachSpanTags E sp req

/-- Lines 112-129 of trace.go; a nil `ctx` is `none`. -/
def CreateFollowFromSpanByContext (E : Env) (spanName : String) (ctx : Option Context)
    (req : Request) : Span :=
  match ctx with
  | none => CreateRootSpan E spanName req
  | some c =>
    match c.Get ParentSpan with
    | none => CreateRootSpan E spanName req
    | some parentSpanTmp =>
      match parentSpanTmp with
      | .other _ => CreateRootSpan E spanName req
      | .span parentSpan =>
        let sp := E.GlobalTracer.StartSpan spanName [.reference (FollowsFrom (some parentSpan.Context))]
        attachSpanTags E sp req

/-- Lines 146-153 of trace.go: returns the request with its header as the
tracer left it, and the error. -/
def InjectSpan (sp : Span) (req : Request) : Request × Option Error :=
  match sp.Tracer.Inject sp.Context .TextMap req.Header with
  | (h, some err) => ({ req with Header := h }, some err)
  | (h, none) => ({ req with Header := h }, none)

/-! ## Observations used to state the properties -/

/-- The `SetTag` calls that lines 132-141 of trace.go make on the span, in order. -/
def standardTags (P : Platform) (req : Request) : List Tag :=
  [("http.method", TagValue.str req.Method), ("http.url", TagValue.str req.URL.String)] ++
    (match SplitHostPort req.URL.Host with
      | (host, portString, none) =>
        ("peer.hostname", TagValue.str host) ::
          (match Atoi P portString with
            | (port, some _) => [("peer.port", TagValue.u16 (uint16 port))]
            | (_, none) => [])
      | (_, _, some _) => [("peer.hostname", TagValue.str req.URL.Host)])

/-- The span carries the tag `key = value`: in its start options or set later. -/
def Span.tagged (sp : Span) (key : String) (value : TagValue) : Prop :=
  (key, value) ∈ sp.allTags

/-- The tracer gives a span started with a reference the trace id of the
first referenced context (the OpenTracing meaning of a reference). -/
def Tracer.inheritsTrace (T : Tracer) : Prop :=
  ∀ (name : String) (o : StartSpanOptions) (r : SpanReference) (rest : List SpanReference)
    (c : SpanContext),
    o.References = r :: rest → r.ReferencedContext = some c →
      (T.mint name o).traceID = c.traceID

/-! ## Fixtures: tracers, environments and sample requests -/

/-- The tracer of `opentracing.NoopTracer`, the global tracer when none is
registered: `Inject` writes nothing and succeeds, `Extract` finds nothing. -/
def noopTracer : Tracer :=
  { mint := fun _ _ => { traceID := 0, spanID := 0 }
    Extract := fun _ _ => (none, some { msg := "opentracing: SpanContext not found in Extract carrier" })
    Inject := fun _ _ h => (h, none) }

/-- A small tracer that writes the trace id and the span id as the number of
values of two headers, reads them back, and gives a span with a parent
reference the parent trace id. -/
def mockTracer : Tracer :=
  { mint := fun _ o =>
      match o.References with
      | [] => { traceID := 1, spanID := 1 }
      | r :: _ =>
        match r.ReferencedContext with
        | none => { traceID := 1, spanID := 1 }
        | some c => { traceID := c.traceID, spanID := c.spanID + 1 }
    Extract := fun _ h =>
      match h.lookup "Mockpfx-Ids-Traceid", h.lookup "Mockpfx-Ids-Spanid" with
      | some t, some s => (some { traceID := t.length, spanID := s.length }, none)
      | _, _ => (none, some { msg := "opentracing: SpanContext not found in Extract carrier" })
    Inject := fun c _ h =>
      (("Mockpfx-Ids-Traceid", List.replicate c.traceID "1") ::
        ("Mockpfx-Ids-Spanid", List.replicate c.spanID "1") :: h, none) }

/-- A tracer whose `Inject` fails and leaves the carrier as it is; the rest is
the small tracer. -/
def rejectingTracer : Tracer :=
  { mockTracer with
    Inject := fun _ _ h => (h, some { msg := "opentracing: SpanContext type incompatible with tracer" }) }

/-- A tracer whose `Extract` always succeeds with the context of trace id 5 and
span id 1, and which gives every span it starts the trace id 7 whatever its
references; the rest is the small tracer. -/
def freshTracer : Tracer :=
  { mockTracer with
    mint := fun _ _ => { traceID := 7, spanID := 7 }
    Extract := fun _ _ => (some { traceID := 5, spanID := 1 }, none) }

/-- An environment with the tracer that starts every span in a trace of its
own, and no domain tags. -/
def freshEnv : Env :=
  { platform := .bits64, GlobalTracer := freshTracer, droiTags := fun _ => [] }

/-- An environment with no registered tracer and no domain tags. -/
def noopEnv : Env :=
  { platform := .bits64, GlobalTracer := noopTracer, droiTags := fun _ => [] }

/-- An environment with the small tracer and no domain tags. -/
def mockEnv : Env :=
  { platform := .bits64, GlobalTracer := mockTracer, droiTags := fun _ => [] }

/-- A `GET` request to the host `example.com:8080` with an empty header. -/
def sampleReq : Request :=
  { Method := bytes "GET"
    URL := { Host := bytes "example.com:8080", String := bytes "http://example.com:8080/" }
    Header := [] }

/-- A span started by the small tracer with no options. -/
def sampleSpan : Span := mockTracer.StartSpan "parent" []

/-- A span started by the no-op tracer. -/
def noopSpan : Span := noopTracer.StartSpan "parent" []

/-- A span started by the tracer whose `Inject` fails. -/
def rejectedSpan : Span := rejectingTracer.StartSpan "parent" []

/-! ## Further fixtures and observations -/

/-- A call context whose `parentSpan` entry is the sample span. -/
def ctxWithSpan : Context :=
  { Get := fun k => if k = ParentSpan then some (.span sampleSpan) else none }

/-- A call context whose `parentSpan` entry is not a span. -/
def ctxWithOther : Context :=
  { Get := fun k => if k = ParentSpan then some (.other "a string") else none }

/-- A call context with no entry. -/
def ctxEmpty : Context :=
  { Get := fun _ => none }

/-- A request whose header carries the context with trace id 3 and span id 1,
as the small tracer writes it. -/
def inboundReq : Request :=
  { Method := bytes "GET"
    URL := { Host := bytes "example.com", String := bytes "http://example.com/" }
    Header := [("Mockpfx-Ids-Traceid", ["1", "1", "1"]), ("Mockpfx-Ids-Spanid", ["1"])] }

/-- The span carries the three request tags: method, full URL, and the peer
host name, the host part when the URL host splits and the raw URL host when
it does not. -/
def Span.carriesRequestTags (sp : Span) (req : Request) : Prop :=
  sp.tagged "http.method" (.str req.Method) ∧
  sp.tagged "http.url" (.str req.URL.String) ∧
  sp.tagged "peer.hostname"
    (.str (if (SplitHostPort req.URL.Host).2.2 = none then (SplitHostPort req.URL.Host).1
      else req.URL.Host))

/-- The byte is a decimal digit `0` to `9`. -/
def isDigit (c : Nat) : Prop := 48 ≤ c ∧ c ≤ 57

instance (c : Nat) : Decidable (isDigit c) := by
  unfold isDigit
  infer_instance

/-- The longest prefix of decimal digits. -/
def digitPrefix : GoString → GoString
  | [] => []
  | c :: t => if isDigit c then c :: digitPrefix t else []

/-- The number that the digits `ds` write in base 10 after the number `n`. -/
def decimalFrom (n : Nat) (ds : GoString) : Nat :=
  ds.foldl (fun a c => a * 10 + (c - 48)) n

/-- The string without one leading sign `+` or `-`. -/
def unsignedPart (s : GoString) : GoString :=
  if s.head? = some 43 ∨ s.head? = some 45 then s.tail else s

/-- Decimal syntax: an optional sign, then one or more digits and nothing else. -/
def validDecimal (s : GoString) : Prop :=
  unsignedPart s ≠ [] ∧ digitPrefix (unsignedPart s) = unsignedPart s

instance (s : GoString) : Decidable (validDecimal s) := by
  unfold validDecimal
  infer_instance

/-- What `Atoi` returns, read off the string: with `u` the string without its
sign and `v` the value of the leading digits of `u`, a syntax error with 0 when
`u` is empty or a non-digit follows leading digits that fit the unsigned type,
a range error with the largest or the smallest `int` when the digits read
overflow, and the signed value otherwise. -/
def atoiSpec (P : Platform) (s : GoString) : Int × Option NumError :=
  let u := unsignedPart s
  let v := decimalFrom 0 (digitPrefix u)
  if u = [] then (0, some .syntaxError)
  else if digitPrefix u ≠ u ∧ v ≤ 2 ^ P.intSize - 1 then (0, some .syntaxError)
  else if s.head? ≠ some 45 ∧ v ≥ 2 ^ (P.intSize - 1) then
    (2 ^ (P.intSize - 1) - 1, some .rangeError)
  else if s.head? = some 45 ∧ v > 2 ^ (P.intSize - 1) then
    (-2 ^ (P.intSize - 1), some .rangeError)
  else (if s.head? = some 45 then -(v : Int) else (v : Int), none)

/-- The port string of the request: the second result of splitting its URL host. -/
def portString (req : Request) : GoString := (SplitHostPort req.URL.Host).2.1

/-- A `GET` request to the given URL host, with an empty header. -/
def reqTo (host : GoString) : Request :=
  { Method := bytes "GET"
    URL := { Host := host, String := bytes "http://" ++ host ++ bytes "/" }
    Header := [] }

/-! ## Lemmas on tag attachment -/

theorem foldl_SetTag (l : List Tag) (sp : Span) :
    l.foldl (fun s t => s.SetTag t.1 t.2) sp = { sp with tags := sp.tags ++ l } := by
  induction l generalizing sp with
  | nil => simp
  | cons t l ih =>
    rw [List.foldl_cons, ih]
    simp [Span.SetTag]

theorem attachSpanTags_eq (E : Env) (sp : Span) (req : Request) :
    attachSpanTags E sp req =
      { sp with tags := sp.tags ++ standardTags E.platform req ++ E.droiTags req.Header } := by
  unfold attachSpanTags SetDroiTagFromHeaders standardTags
  rw [foldl_SetTag]
  rcases hs : SplitHostPort req.URL.Host with ⟨host, portString, _ | e⟩
  · rcases ha : Atoi E.platform portString with ⟨port, _ | e2⟩ <;> simp [Span.SetTag, ha]
  · simp [Span.SetTag]

theorem attachSpanTags_withRefType (E : Env) (ty : SpanReferenceType) (sp : Span)
    (req : Request) :
    attachSpanTags E (sp.withRefType ty) req = (attachSpanTags E sp req).withRefType ty := by
  rw [attachSpanTags_eq, attachSpanTags_eq]
  rfl

theorem CreateRootSpan_eq (E : Env) (spanName : String) (req : Request) :
    CreateRootSpan E spanName req =
      { tracer := E.GlobalTracer
        operationName := spanName
        options := { References := [], Tags := [] }
        tags := standardTags E.platform req ++ E.droiTags req.Header } := by
  unfold CreateRootSpan
  rw [attachSpanTags_eq]
  simp [Tracer.StartSpan]

theorem CreateChildSpan_eq (E : Env) (spanName : String) (parentSpan : Span) (req : Request) :
    CreateChildSpan E spanName parentSpan req =
      { tracer := E.GlobalTracer
        operationName := spanName
        options := { References := [ChildOf (some parentSpan.Context)], Tags := [] }
        tags := standardTags E.platform req ++ E.droiTags req.Header } := by
  unfold CreateChildSpan
  rw [attachSpanTags_eq]
  simp [Tracer.StartSpan, StartSpanOption.Apply, SpanReference.Apply, ChildOf]

theorem CreateFollowFromSpan_eq (E : Env) (spanName : String) (parentSpan : Span)
    (req : Request) :
    CreateFollowFromSpan E spanName parentSpan req =
      { tracer := E.GlobalTracer
        operationName := spanName
        options := { References := [FollowsFrom (some parentSpan.Context)], Tags := [] }
        tags := standardTags E.platform req ++ E.droiTags req.Header } := by
  unfold CreateFollowFromSpan
  rw [attachSpanTags_eq]
  simp [Tracer.StartSpan, StartSpanOption.Apply, SpanReference.Apply, FollowsFrom]

theorem CreateRootSpan_withRefType (E : Env) (ty : SpanReferenceType) (spanName : String)
    (req : Request) :
    (CreateRootSpan E spanName req).withRefType ty = CreateRootSpan E spanName req := by
  rw [CreateRootSpan_eq]
  simp [Span.withRefType]

theorem follow_eq_child_retyped (E : Env) (spanName : String) (parentSpan : Span)
    (req : Request) :
    CreateFollowFromSpan E spanName parentSpan req =
      (CreateChildSpan E spanName parentSpan req).withRefType .FollowsFromRef := by
  rw [CreateFollowFromSpan_eq, CreateChildSpan_eq]
  simp [Span.withRefType, ChildOf, FollowsFrom]

theorem child_eq_follow_retyped (E : Env) (spanName : String) (parentSpan : Span)
    (req : Request) :
    CreateChildSpan E spanName parentSpan req =
      (CreateFollowFromSpan E spanName parentSpan req).withRefType .ChildOfRef := by
  rw [CreateFollowFromSpan_eq, CreateChildSpan_eq]
  simp [Span.withRefType, ChildOf, FollowsFrom]

/-! ## Span creation from a call context -/

/-- C1: with a nil call context, a missing `parentSpan` entry or an entry that
is not a span, `CreateChildSpanByContext` returns what `CreateRootSpan` returns
for the same name and request, a span with no parent reference and the tags of
the request; with a span found it returns what `CreateChildSpan` returns for
that span; the four cases cover every call context, and the function is total. -/
theorem CreateChildSpanByContext_cases (E : Env) (spanName : String) (ctx : Option Context)
    (req : Request) :
    ((ctx = none ∨ (∃ c, ctx = some c ∧ c.Get ParentSpan = none) ∨
        (∃ c d, ctx = some c ∧ c.Get ParentSpan = some (.other d))) →
      CreateChildSpanByContext E spanName ctx req = CreateRootSpan E spanName req) ∧
    (∀ c p, ctx = some c → c.Get ParentSpan = some (.span p) →
      CreateChildSpanByContext E spanName ctx req = CreateChildSpan E spanName p req) ∧
    ((ctx = none ∨ (∃ c, ctx = some c ∧ c.Get ParentSpan = none) ∨
        (∃ c d, ctx = some c ∧ c.Get ParentSpan = some (.other d))) ∨
      (∃ c p, ctx = some c ∧ c.Get ParentSpan = some (.span p))) ∧
    (CreateRootSpan E spanName req).options.References = [] ∧
    (CreateRootSpan E spanName req).tags =
      standardTags E.platform req ++ E.droiTags req.Header := by
  refine ⟨?_, ?_, ?_, ?_, ?_⟩
  · rintro (h | ⟨c, h, hg⟩ | ⟨c, d, h, hg⟩)
    · subst h; rfl
    · subst h; simp [CreateChildSpanByContext, hg]
    · subst h; simp [CreateChildSpanByContext, hg]
  · intro c p h hg
    subst h
    simp [CreateChildSpanByContext, CreateChildSpan, hg]
  · cases ctx with
    | none => exact Or.inl (Or.inl rfl)
    | some c =>
      cases hg : c.Get ParentSpan with
      | none => exact Or.inl (Or.inr (Or.inl ⟨c, rfl, hg⟩))
      | some v =>
        cases v with
        | span p => exact Or.inr ⟨c, p, rfl, hg⟩
        | other d => exact Or.inl (Or.inr (Or.inr ⟨c, d, rfl, hg⟩))
  · rw [CreateRootSpan_eq]
  · rw [CreateRootSpan_eq]

theorem CreateChildSpanByContext_cases_witness :
    CreateChildSpanByContext mockEnv "op" none sampleReq = CreateRootSpan mockEnv "op" sampleReq ∧
    CreateChildSpanByContext mockEnv "op" (some ctxEmpty) sampleReq =
      CreateRootSpan mockEnv "op" sampleReq ∧
    CreateChildSpanByContext mockEnv "op" (some ctxWithOther) sampleReq =
      CreateRootSpan mockEnv "op" sampleReq ∧
    CreateChildSpanByContext mockEnv "op" (some ctxWithSpan) sampleReq =
      CreateChildSpan mockEnv "op" sampleSpan sampleReq :=
  ⟨(CreateChildSpanByContext_cases mockEnv "op" none sampleReq).1 (Or.inl rfl),
   (CreateChildSpanByContext_cases mockEnv "op" (some ctxEmpty) sampleReq).1
      (Or.inr (Or.inl ⟨ctxEmpty, rfl, rfl⟩)),
   (CreateChildSpanByContext_cases mockEnv "op" (some ctxWithOther) sampleReq).1
      (Or.inr (Or.inr ⟨ctxWithOther, "a string", rfl, rfl⟩)),
   (CreateChildSpanByContext_cases mockEnv "op" (some ctxWithSpan) sampleReq).2.1
      ctxWithSpan sampleSpan rfl rfl⟩

/-- C9: `CreateFollowFromSpanByContext` falls back to `CreateRootSpan` in the
same three cases as `CreateChildSpanByContext`, otherwise returns what
`CreateFollowFromSpan` returns for the found span; on every input it is the
result of `CreateChildSpanByContext` with the relationship type of the parent
reference changed to FollowsFrom, and conversely with ChildOf. -/
theorem CreateFollowFromSpanByContext_cases (E : Env) (spanName : String)
    (ctx : Option Context) (req : Request) :
    ((ctx = none ∨ (∃ c, ctx = some c ∧ c.Get ParentSpan = none) ∨
        (∃ c d, ctx = some c ∧ c.Get ParentSpan = some (.other d))) →
      CreateFollowFromSpanByContext E spanName ctx req = CreateRootSpan E spanName req) ∧
    (∀ c p, ctx = some c → c.Get ParentSpan = some (.span p) →
      CreateFollowFromSpanByContext E spanName ctx req =
        CreateFollowFromSpan E spanName p req) ∧
    CreateFollowFromSpanByContext E spanName ctx req =
      (CreateChildSpanByContext E spanName ctx req).withRefType .FollowsFromRef ∧
    CreateChildSpanByContext E spanName ctx req =
      (CreateFollowFromSpanByContext E spanName ctx req).withRefType .ChildOfRef := by
  refine ⟨?_, ?_, ?_, ?_⟩
  · rintro (h | ⟨c, h, hg⟩ | ⟨c, d, h, hg⟩)
    · subst h; rfl
    · subst h; simp [CreateFollowFromSpanByContext, hg]
    · subst h; simp [CreateFollowFromSpanByContext, hg]
  · intro c p h hg
    subst h
    simp [CreateFollowFromSpanByContext, CreateFollowFromSpan, hg]
  · cases ctx with
    | none => exact (CreateRootSpan_withRefType E _ spanName req).symm
    | some c =>
      cases hg : c.Get ParentSpan with
      | none =>
        simp only [CreateFollowFromSpanByContext, CreateChildSpanByContext, hg]
        exact (CreateRootSpan_withRefType E _ spanName req).symm
      | some v =>
        cases v with
        | span p =>
          simp only [CreateFollowFromSpanByContext, CreateChildSpanByContext, hg]
          exact follow_eq_child_retyped E spanName p req
        | other d =>
          simp only [CreateFollowFromSpanByContext, CreateChildSpanByContext, hg]
          exact (CreateRootSpan_withRefType E _ spanName req).symm
  · cases ctx with
    | none => exact (CreateRootSpan_withRefType E _ spanName req).symm
    | some c =>
      cases hg : c.Get ParentSpan with
      | none =>
        simp only [CreateFollowFromSpanByContext, CreateChildSpanByContext, hg]
        exact (CreateRootSpan_withRefType E _ spanName req).symm
      | some v =>
        cases v with
        | span p =>
          simp only [CreateFollowFromSpanByContext, CreateChildSpanByContext, hg]
          exact child_eq_follow_retyped E spanName p req
        | other d =>
          simp only [CreateFollowFromSpanByContext, CreateChildSpanByContext, hg]
          exact (CreateRootSpan_withRefType E _ spanName req).symm

theorem CreateFollowFromSpanByContext_cases_witness :
    CreateFollowFromSpanByContext mockEnv "op" none sampleReq =
      CreateRootSpan mockEnv "op" sampleReq ∧
    CreateFollowFromSpanByContext mockEnv "op" (some ctxEmpty) sampleReq =
      CreateRootSpan mockEnv "op" sampleReq ∧
    CreateFollowFromSpanByContext mockEnv "op" (some ctxWithOther) sampleReq =
      CreateRootSpan mockEnv "op" sampleReq ∧
    CreateFollowFromSpanByContext mockEnv "op" (some ctxWithSpan) sampleReq =
      CreateFollowFromSpan mockEnv "op" sampleSpan sampleReq :=
  ⟨(CreateFollowFromSpanByContext_cases mockEnv "op" none sampleReq).1 (Or.inl rfl),
   (CreateFollowFromSpanByContext_cases mockEnv "op" (some ctxEmpty) sampleReq).1
      (Or.inr (Or.inl ⟨ctxEmpty, rfl, rfl⟩)),
   (CreateFollowFromSpanByContext_cases mockEnv "op" (some ctxWithOther) sampleReq).1
      (Or.inr (Or.inr ⟨ctxWithOther, "a string", rfl, rfl⟩)),
   (CreateFollowFromSpanByContext_cases mockEnv "op" (some ctxWithSpan) sampleReq).2.1
      ctxWithSpan sampleSpan rfl rfl⟩

/-- C6: for every name, parent span and request, `CreateFollowFromSpan` and
`CreateChildSpan` return spans with the same tags, the same operation name and
tracer, and one reference each to the context of the parent span, of type
FollowsFrom and ChildOf; each is the other with the relationship type changed. -/
theorem CreateFollowFromSpan_vs_CreateChildSpan (E : Env) (spanName : String)
    (parentSpan : Span) (req : Request) :
    (CreateFollowFromSpan E spanName parentSpan req).allTags =
      (CreateChildSpan E spanName parentSpan req).allTags ∧
    (CreateFollowFromSpan E spanName parentSpan req).options.References =
      [{ RefType := .FollowsFromRef, ReferencedContext := some parentSpan.Context }] ∧
    (CreateChildSpan E spanName parentSpan req).options.References =
      [{ RefType := .ChildOfRef, ReferencedContext := some parentSpan.Context }] ∧
    CreateFollowFromSpan E spanName parentSpan req =
      (CreateChildSpan E spanName parentSpan req).withRefType .FollowsFromRef ∧
    CreateChildSpan E spanName parentSpan req =
      (CreateFollowFromSpan E spanName parentSpan req).withRefType .ChildOfRef := by
  rw [CreateFollowFromSpan_eq, CreateChildSpan_eq]
  simp [Span.allTags, Span.withRefType, ChildOf, FollowsFrom]

/-! ## Span creation from an inbound request -/

theorem mockTracer_inheritsTrace : mockTracer.inheritsTrace := by
  intro name o r rest c h1 h2
  simp [mockTracer, h1, h2]

theorem CreateSpanFromReq_ok_eq (E : Env) (spanName : String) (req : Request)
    (c : SpanContext)
    (h : E.GlobalTracer.Extract .HTTPHeaders req.Header = (some c, none)) :
    CreateSpanFromReq E spanName req =
      { tracer := E.GlobalTracer
        operationName := spanName
        options :=
          { References := [{ RefType := .ChildOfRef, ReferencedContext := some c }]
            Tags := [("span.kind", TagValue.str (bytes "server"))] }
        tags := standardTags E.platform req ++ E.droiTags req.Header } := by
  unfold CreateSpanFromReq
  rw [h, attachSpanTags_eq]
  simp [Tracer.StartSpan, StartSpanOption.Apply, SpanReference.Apply, ChildOf]

theorem InjectSpan_fst (sp : Span) (req : Request) :
    (InjectSpan sp req).1 =
      { req with Header := (sp.Tracer.Inject sp.Context .TextMap req.Header).1 } := by
  unfold InjectSpan
  rcases hx : sp.Tracer.Inject sp.Context .TextMap req.Header with ⟨hd, _ | e⟩ <;> simp

theorem InjectSpan_snd (sp : Span) (req : Request) :
    (InjectSpan sp req).2 = (sp.Tracer.Inject sp.Context .TextMap req.Header).2 := by
  unfold InjectSpan
  rcases hx : sp.Tracer.Inject sp.Context .TextMap req.Header with ⟨hd, _ | e⟩ <;> simp

/-- C2: when the extraction over the request headers returns an error,
`CreateSpanFromReq` returns the span `CreateRootSpan` returns for the same name
and request: no parent reference, no start tag, and the tags of the request.
The result is a span; the error is not part of it. -/
theorem CreateSpanFromReq_extract_error (E : Env) (spanName : String) (req : Request)
    (h : (E.GlobalTracer.Extract .HTTPHeaders req.Header).2 ≠ none) :
    CreateSpanFromReq E spanName req = CreateRootSpan E spanName req ∧
    (CreateSpanFromReq E spanName req).options.References = [] ∧
    (CreateSpanFromReq E spanName req).allTags =
      standardTags E.platform req ++ E.droiTags req.Header := by
  have h1 : CreateSpanFromReq E spanName req = CreateRootSpan E spanName req := by
    unfold CreateSpanFromReq CreateRootSpan
    rcases hx : E.GlobalTracer.Extract .HTTPHeaders req.Header with ⟨w, _ | e⟩
    · rw [hx] at h; exact absurd rfl h
    · rfl
  rw [h1, CreateRootSpan_eq]
  simp [Span.allTags]

theorem CreateSpanFromReq_extract_error_witness :
    (noopEnv.GlobalTracer.Extract .HTTPHeaders sampleReq.Header).2 ≠ none ∧
    CreateSpanFromReq noopEnv "op" sampleReq = CreateRootSpan noopEnv "op" sampleReq ∧
    (CreateSpanFromReq noopEnv "op" sampleReq).options.References = [] :=
  ⟨by decide,
   (CreateSpanFromReq_extract_error noopEnv "op" sampleReq (by decide)).1,
   (CreateSpanFromReq_extract_error noopEnv "op" sampleReq (by decide)).2.1⟩

/-- C3, as stated, fails: with a tracer whose extraction succeeds with the
context of trace id 5 and which starts every span in a trace of its own,
`CreateSpanFromReq` starts the span with the one reference ChildOf that
context, and the trace id of the span's context is 7, not 5. -/
theorem CreateSpanFromReq_fresh_trace :
    freshEnv.GlobalTracer.Extract .HTTPHeaders sampleReq.Header =
      (some { traceID := 5, spanID := 1 }, none) ∧
    (CreateSpanFromReq freshEnv "op" sampleReq).options.References =
      [{ RefType := .ChildOfRef, ReferencedContext := some { traceID := 5, spanID := 1 } }] ∧
    (CreateSpanFromReq freshEnv "op" sampleReq).Context.traceID = 7 ∧
    (CreateSpanFromReq freshEnv "op" sampleReq).Context.traceID ≠
      ({ traceID := 5, spanID := 1 } : SpanContext).traceID ∧
    ¬ freshTracer.inheritsTrace := by
  refine ⟨rfl, by decide, rfl, by decide, ?_⟩
  intro h
  have h5 := h "op"
    { References := [{ RefType := .ChildOfRef,
                       ReferencedContext := some { traceID := 5, spanID := 1 } }],
      Tags := [] }
    { RefType := .ChildOfRef, ReferencedContext := some { traceID := 5, spanID := 1 } }
    [] { traceID := 5, spanID := 1 } rfl rfl
  exact absurd h5 (by decide)

/-- C3, amended: when the extraction over the request headers succeeds with
context `c`, `CreateSpanFromReq` returns the span started with the RPC-server
option on `c`: its one reference is ChildOf `c`, it carries `span.kind = server`
and the tags of the request; and when the tracer gives a span started with a
reference the trace id of its first referenced context, the trace id of the
span's context is that of `c`. -/
theorem CreateSpanFromReq_extract_ok (E : Env) (spanName : String) (req : Request)
    (c : SpanContext)
    (h : E.GlobalTracer.Extract .HTTPHeaders req.Header = (some c, none)) :
    CreateSpanFromReq E spanName req =
      attachSpanTags E (E.GlobalTracer.StartSpan spanName [.rpcServer (some c)]) req ∧
    (CreateSpanFromReq E spanName req).options.References =
      [{ RefType := .ChildOfRef, ReferencedContext := some c }] ∧
    (CreateSpanFromReq E spanName req).allTags =
      ("span.kind", TagValue.str (bytes "server")) ::
        (standardTags E.platform req ++ E.droiTags req.Header) ∧
    (E.GlobalTracer.inheritsTrace →
      (CreateSpanFromReq E spanName req).Context.traceID = c.traceID) := by
  have h0 := CreateSpanFromReq_ok_eq E spanName req c h
  refine ⟨?_, ?_, ?_, ?_⟩
  · unfold CreateSpanFromReq
    rw [h]
  · rw [h0]
  · rw [h0]
    simp [Span.allTags]
  · intro hT
    rw [h0]
    exact hT _ _ _ [] c rfl rfl

theorem CreateSpanFromReq_extract_ok_witness :
    mockEnv.GlobalTracer.Extract .HTTPHeaders inboundReq.Header =
      (some { traceID := 3, spanID := 1 }, none) ∧
    (CreateSpanFromReq mockEnv "op" inboundReq).options.References =
      [{ RefType := .ChildOfRef, ReferencedContext := some { traceID := 3, spanID := 1 } }] ∧
    (CreateSpanFromReq mockEnv "op" inboundReq).Context.traceID = 3 :=
  ⟨by decide,
   (CreateSpanFromReq_extract_ok mockEnv "op" inboundReq { traceID := 3, spanID := 1 }
      (by decide)).2.1,
   (CreateSpanFromReq_extract_ok mockEnv "op" inboundReq { traceID := 3, spanID := 1 }
      (by decide)).2.2.2 mockTracer_inheritsTrace⟩

/-! ## Injection -/

/-- C8: `InjectSpan` leaves the request header as one call of the `Inject` of
the span's own tracer leaves it (on the span's context, in the text-map
format), and returns the error of that call unchanged: an error exactly when
that call fails, none when it succeeds.  The equations hold for every tracer,
also one whose `Inject` changes the header on each call, so there is one call. -/
theorem InjectSpan_single_attempt (sp : Span) (req : Request) :
    (InjectSpan sp req).1 =
      { req with Header := (sp.Tracer.Inject sp.Context .TextMap req.Header).1 } ∧
    (InjectSpan sp req).2 = (sp.Tracer.Inject sp.Context .TextMap req.Header).2 ∧
    ((InjectSpan sp req).2 ≠ none ↔
      (sp.Tracer.Inject sp.Context .TextMap req.Header).2 ≠ none) ∧
    (∀ err, (sp.Tracer.Inject sp.Context .TextMap req.Header).2 = some err →
      (InjectSpan sp req).2 = some err) := by
  unfold InjectSpan
  rcases hx : sp.Tracer.Inject sp.Context .TextMap req.Header with ⟨hd, _ | e⟩ <;> simp

/-- C7, as stated, fails: with the no-op tracer (the global tracer when none is
registered) `InjectSpan` succeeds and writes nothing, the extraction on the
receiving side finds no context, and `CreateSpanFromReq` starts a root span;
and with a tracer whose injection fails `InjectSpan` returns the error, the
header is unchanged, and the extraction finds no context either. -/
theorem InjectSpan_lost_context :
    (InjectSpan noopSpan sampleReq).2 = none ∧
    (¬ ∃ c, noopEnv.GlobalTracer.Extract .HTTPHeaders (InjectSpan noopSpan sampleReq).1.Header =
        (some c, none) ∧ c.traceID = noopSpan.Context.traceID) ∧
    (CreateSpanFromReq noopEnv "op" (InjectSpan noopSpan sampleReq).1).options.References = [] ∧
    (InjectSpan rejectedSpan sampleReq).2 ≠ none ∧
    (¬ ∃ c, mockEnv.GlobalTracer.Extract .HTTPHeaders (InjectSpan rejectedSpan sampleReq).1.Header =
        (some c, none) ∧ c.traceID = rejectedSpan.Context.traceID) ∧
    (CreateSpanFromReq mockEnv "op" (InjectSpan rejectedSpan sampleReq).1).options.References =
      [] := by
  refine ⟨rfl, ?_, rfl, by decide, ?_, rfl⟩
  · rintro ⟨c, h, -⟩
    simp [noopEnv, noopTracer] at h
  · rintro ⟨c, h, -⟩
    have h2 : (mockEnv.GlobalTracer.Extract .HTTPHeaders
        (InjectSpan rejectedSpan sampleReq).1.Header).2 ≠ none := by decide
    rw [h] at h2
    exact h2 rfl

/-- C7, amended: when `InjectSpan` returns no error, and the extraction of the
receiving tracer in the HTTP-headers format reads back what a successful
text-map injection of the span's tracer wrote, the extraction
`CreateSpanFromReq` performs on the request recovers a context with the trace
id of the injected span, and the span it starts is ChildOf that context. -/
theorem InjectSpan_roundtrip (E : Env) (sp : Span) (req : Request) (spanName : String)
    (hRT : ∀ ctx h, (sp.Tracer.Inject ctx .TextMap h).2 = none →
      ∃ c, E.GlobalTracer.Extract .HTTPHeaders (sp.Tracer.Inject ctx .TextMap h).1 =
        (some c, none) ∧ c.traceID = ctx.traceID)
    (hInj : (InjectSpan sp req).2 = none) :
    ∃ c, E.GlobalTracer.Extract .HTTPHeaders (InjectSpan sp req).1.Header = (some c, none) ∧
      c.traceID = sp.Context.traceID ∧
      (CreateSpanFromReq E spanName (InjectSpan sp req).1).options.References =
        [{ RefType := .ChildOfRef, ReferencedContext := some c }] := by
  rw [InjectSpan_snd] at hInj
  obtain ⟨c, hc, ht⟩ := hRT sp.Context req.Header hInj
  have hc2 : E.GlobalTracer.Extract .HTTPHeaders (InjectSpan sp req).1.Header =
      (some c, none) := by
    rw [InjectSpan_fst]; exact hc
  refine ⟨c, hc2, ht, ?_⟩
  rw [CreateSpanFromReq_ok_eq E spanName _ c hc2]

theorem InjectSpan_roundtrip_witness :
    (InjectSpan sampleSpan sampleReq).2 = none ∧
    ∃ c, mockEnv.GlobalTracer.Extract .HTTPHeaders (InjectSpan sampleSpan sampleReq).1.Header =
        (some c, none) ∧
      c.traceID = sampleSpan.Context.traceID ∧
      (CreateSpanFromReq mockEnv "op" (InjectSpan sampleSpan sampleReq).1).options.References =
        [{ RefType := .ChildOfRef, ReferencedContext := some c }] :=
  ⟨rfl, InjectSpan_roundtrip mockEnv sampleSpan sampleReq "op"
    (by
      intro ctx h _
      exact ⟨{ traceID := ctx.traceID, spanID := ctx.spanID }, by
        simp [mockEnv, sampleSpan, Span.Tracer, Tracer.StartSpan, mockTracer, List.lookup], rfl⟩)
    rfl⟩

/-! ## Tag attachment -/

theorem standardTags_request (P : Platform) (req : Request) :
    ("http.method", TagValue.str req.Method) ∈ standardTags P req ∧
    ("http.url", TagValue.str req.URL.String) ∈ standardTags P req ∧
    ("peer.hostname",
      TagValue.str (if (SplitHostPort req.URL.Host).2.2 = none then (SplitHostPort req.URL.Host).1
        else req.URL.Host)) ∈ standardTags P req := by
  unfold standardTags
  rcases hs : SplitHostPort req.URL.Host with ⟨host, portString, _ | e⟩ <;> simp

theorem attachSpanTags_carries (E : Env) (sp : Span) (req : Request) :
    (attachSpanTags E sp req).carriesRequestTags req := by
  have h := standardTags_request E.platform req
  rw [attachSpanTags_eq]
  unfold Span.carriesRequestTags Span.tagged Span.allTags
  simp only [List.mem_append]
  exact ⟨Or.inr (Or.inl (Or.inr h.1)), Or.inr (Or.inl (Or.inr h.2.1)),
    Or.inr (Or.inl (Or.inr h.2.2))⟩

theorem standardTags_port_iff (P : Platform) (req : Request) :
    (∃ v, ("peer.port", v) ∈ standardTags P req) ↔
      ((SplitHostPort req.URL.Host).2.2 = none ∧
        (Atoi P (SplitHostPort req.URL.Host).2.1).2 ≠ none) := by
  unfold standardTags
  rcases hs : SplitHostPort req.URL.Host with ⟨host, portString, _ | e⟩
  · rcases ha : Atoi P portString with ⟨port, _ | e2⟩ <;> simp [ha]
  · simp

/-- C4: the tags `attachSpanTags` adds to a span are the standard tags of the
request followed by the domain tags, and the standard tags hold a peer-port tag
if and only if the URL host splits into host and port and the numeric parse of
the port string fails; the host `example.com:8080` splits into `example.com`
and `8080`, which parses, so no peer-port tag is set, and the host
`example.com` does not split, so none is set either. -/
theorem attachSpanTags_peer_port_iff (E : Env) (sp : Span) (req : Request) :
    (attachSpanTags E sp req).tags =
      sp.tags ++ standardTags E.platform req ++ E.droiTags req.Header ∧
    ((∃ v, ("peer.port", v) ∈ standardTags E.platform req) ↔
      ((SplitHostPort req.URL.Host).2.2 = none ∧
        (Atoi E.platform (SplitHostPort req.URL.Host).2.1).2 ≠ none)) ∧
    SplitHostPort (bytes "example.com:8080") = (bytes "example.com", bytes "8080", none) ∧
    Atoi E.platform (bytes "8080") = (8080, none) ∧
    (∀ m u h, ¬ ∃ v, ("peer.port", v) ∈ standardTags E.platform
      { Method := m, URL := { Host := bytes "example.com:8080", String := u }, Header := h }) ∧
    (SplitHostPort (bytes "example.com")).2.2 = some .missingPort ∧
    (∀ m u h, ¬ ∃ v, ("peer.port", v) ∈ standardTags E.platform
      { Method := m, URL := { Host := bytes "example.com", String := u }, Header := h }) := by
  have h8080 : Atoi E.platform (bytes "8080") = (8080, none) := by
    cases E.platform <;> decide
  have hsplit : SplitHostPort (bytes "example.com:8080") =
      (bytes "example.com", bytes "8080", none) := by decide
  have hno : (SplitHostPort (bytes "example.com")).2.2 = some .missingPort := by decide
  refine ⟨?_, standardTags_port_iff E.platform req, hsplit, h8080, ?_, hno, ?_⟩
  · rw [attachSpanTags_eq]
  · intro m u h hv
    have := (standardTags_port_iff E.platform _).1 hv
    simp only [hsplit, h8080] at this
    exact this.2 rfl
  · intro m u h hv
    have := (standardTags_port_iff E.platform _).1 hv
    simp only [hno] at this
    exact absurd this.1 (by decide)

/-- C5: each of the six span-creation functions, on every path, returns a span
tagged with the method of the request, the full string of its URL, and as peer
host name the host part of the URL host when it splits and the raw URL host
when it does not; a span that carries these tags for the host `example.com`
or for the host `example.com:8080` has the peer host name `example.com`. -/
theorem creation_carries_request_tags (E : Env) (spanName : String) (parentSpan : Span)
    (ctx : Option Context) (req : Request) :
    (CreateSpanFromReq E spanName req).carriesRequestTags req ∧
    (CreateRootSpan E spanName req).carriesRequestTags req ∧
    (CreateChildSpan E spanName parentSpan req).carriesRequestTags req ∧
    (CreateChildSpanByContext E spanName ctx req).carriesRequestTags req ∧
    (CreateFollowFromSpan E spanName parentSpan req).carriesRequestTags req ∧
    (CreateFollowFromSpanByContext E spanName ctx req).carriesRequestTags req ∧
    (∀ (sp : Span) m u h,
      sp.carriesRequestTags
        { Method := m, URL := { Host := bytes "example.com", String := u }, Header := h } →
      sp.tagged "peer.hostname" (.str (bytes "example.com"))) ∧
    (∀ (sp : Span) m u h,
      sp.carriesRequestTags
        { Method := m, URL := { Host := bytes "example.com:8080", String := u }, Header := h } →
      sp.tagged "peer.hostname" (.str (bytes "example.com"))) := by
  refine ⟨?_, ?_, ?_, ?_, ?_, ?_, ?_, ?_⟩
  · unfold CreateSpanFromReq
    exact attachSpanTags_carries E _ req
  · exact attachSpanTags_carries E _ req
  · exact attachSpanTags_carries E _ req
  · unfold CreateChildSpanByContext
    split
    · exact attachSpanTags_carries E _ req
    · split
      · exact attachSpanTags_carries E _ req
      · split
        · exact attachSpanTags_carries E _ req
        · exact attachSpanTags_carries E _ req
  · exact attachSpanTags_carries E _ req
  · unfold CreateFollowFromSpanByContext
    split
    · exact attachSpanTags_carries E _ req
    · split
      · exact attachSpanTags_carries E _ req
      · split
        · exact attachSpanTags_carries E _ req
        · exact attachSpanTags_carries E _ req
  · intro sp m u h hc
    have := hc.2.2
    have hno : (SplitHostPort (bytes "example.com")).2.2 = some .missingPort := by decide
    simp only [hno] at this
    exact this
  · intro sp m u h hc
    have := hc.2.2
    have hsplit : SplitHostPort (bytes "example.com:8080") =
        (bytes "example.com", bytes "8080", none) := by decide
    simp only [hsplit] at this
    exact this

theorem decimalFrom_cons (n c : Nat) (ds : GoString) :
    decimalFrom n (c :: ds) = decimalFrom (n * 10 + (c - 48)) ds := rfl

theorem decimalFrom_ge (ds : GoString) (n : Nat) : n ≤ decimalFrom n ds := by
  induction ds generalizing n with
  | nil => exact Nat.le_refl n
  | cons c t ih =>
    rw [decimalFrom_cons]
    have := ih (n * 10 + (c - 48))
    omega

theorem digitPrefix_cons_digit (c : Nat) (t : GoString) (h : isDigit c) :
    digitPrefix (c :: t) = c :: digitPrefix t := by
  simp [digitPrefix, h]

theorem digitPrefix_cons_other (c : Nat) (t : GoString) (h : ¬ isDigit c) :
    digitPrefix (c :: t) = [] := by
  simp [digitPrefix, h]

theorem parseUintLoop_eq (maxVal : Nat) (hmax : maxVal ≤ 2 ^ 64 - 1) (u : GoString) (n : Nat)
    (hn : n ≤ maxVal) :
    parseUintLoop maxVal u n =
      if decimalFrom n (digitPrefix u) ≤ maxVal then
        (if digitPrefix u = u then (decimalFrom n (digitPrefix u), none)
          else (0, some .syntaxError))
      else (maxVal, some .rangeError) := by
  induction u generalizing n with
  | nil => simp [parseUintLoop, digitPrefix, decimalFrom, hn]
  | cons c t ih =>
    by_cases hc : isDigit c
    · have hc1 : 48 ≤ c ∧ c ≤ 57 := hc
      rw [digitPrefix_cons_digit c t hc, decimalFrom_cons]
      have hge := decimalFrom_ge (digitPrefix t) (n * 10 + (c - 48))
      rw [parseUintLoop]
      simp only [hc1, and_self, if_true]
      have hd : ¬ (c - 48 ≥ 10) := by omega
      simp only [hd, if_false]
      by_cases hcut : n ≥ (2 ^ 64 - 1) / 10 + 1
      · simp only [hcut, if_true]
        have : ¬ decimalFrom (n * 10 + (c - 48)) (digitPrefix t) ≤ maxVal := by omega
        simp only [this, if_false]
      · simp only [hcut, if_false]
        have h10 : n * 10 % 2 ^ 64 = n * 10 := by omega
        rw [h10]
        by_cases hov : (n * 10 + (c - 48)) % 2 ^ 64 < n * 10 ∨
            (n * 10 + (c - 48)) % 2 ^ 64 > maxVal
        · simp only [hov, if_true]
          have : ¬ decimalFrom (n * 10 + (c - 48)) (digitPrefix t) ≤ maxVal := by omega
          simp only [this, if_false]
        · simp only [hov, if_false]
          have h1 : (n * 10 + (c - 48)) % 2 ^ 64 = n * 10 + (c - 48) := by omega
          rw [h1]
          rw [ih (n * 10 + (c - 48)) (by omega)]
          simp
    · have hc1 : ¬ (48 ≤ c ∧ c ≤ 57) := hc
      rw [digitPrefix_cons_other c t hc, parseUintLoop]
      simp [hc1, decimalFrom, hn]

theorem atoiFastLoop_eq (u : GoString) (hu : ∀ c ∈ u, c < 256) (n : Nat) :
    atoiFastLoop u (n : Int) =
      if digitPrefix u = u then some ((decimalFrom n u : Nat) : Int) else none := by
  induction u generalizing n with
  | nil => simp [atoiFastLoop, digitPrefix, decimalFrom]
  | cons c t ih =>
    have hc256 : c < 256 := hu c (List.mem_cons_self c t)
    have ht : ∀ x ∈ t, x < 256 := fun x hx => hu x (List.mem_cons_of_mem c hx)
    by_cases hc : isDigit c
    · have hc1 : 48 ≤ c ∧ c ≤ 57 := hc
      rw [digitPrefix_cons_digit c t hc, decimalFrom_cons, atoiFastLoop]
      have h1 : (c + 256 - 48) % 256 = c - 48 := by omega
      have h2 : ¬ (c - 48 > 9) := by omega
      simp only [h1, h2, if_false]
      have h3 : ((n : Int) * 10 + ((c - 48 : Nat) : Int)) = ((n * 10 + (c - 48) : Nat) : Int) := by
        push_cast
        rfl
      rw [h3, ih ht]
      simp
    · have hc1 : ¬ (48 ≤ c ∧ c ≤ 57) := hc
      rw [digitPrefix_cons_other c t hc, atoiFastLoop]
      have h2 : (c + 256 - 48) % 256 > 9 := by omega
      simp only [h2, if_true]
      simp

theorem decimalFrom_lt (ds : GoString) (n : Nat) (hd : digitPrefix ds = ds) :
    decimalFrom n ds < (n + 1) * 10 ^ ds.length := by
  induction ds generalizing n with
  | nil => simp [decimalFrom]
  | cons c t ih =>
    by_cases hc : isDigit c
    · have hc1 : 48 ≤ c ∧ c ≤ 57 := hc
      rw [digitPrefix_cons_digit c t hc] at hd
      have ht : digitPrefix t = t := by simpa using hd
      rw [decimalFrom_cons]
      have h1 := ih (n * 10 + (c - 48)) ht
      have h2 : (n * 10 + (c - 48) + 1) * 10 ^ t.length ≤ ((n + 1) * 10) * 10 ^ t.length :=
        Nat.mul_le_mul_right _ (by omega)
      have h3 : (n + 1) * 10 ^ (c :: t).length = ((n + 1) * 10) * 10 ^ t.length := by
        simp [pow_succ]
        ring
      omega
    · rw [digitPrefix_cons_other c t hc] at hd
      exact absurd hd (by simp)

theorem ParseUint_eq (b : Nat) (hb : b ≤ 64) (u : GoString) :
    ParseUint b u =
      if u = [] then (0, some .syntaxError)
      else if decimalFrom 0 (digitPrefix u) ≤ 2 ^ b - 1 then
        (if digitPrefix u = u then (decimalFrom 0 (digitPrefix u), none)
          else (0, some .syntaxError))
      else (2 ^ b - 1, some .rangeError) := by
  unfold ParseUint
  have hmax : 2 ^ b - 1 ≤ 2 ^ 64 - 1 :=
    Nat.sub_le_sub_right (Nat.pow_le_pow_right (by decide) hb) 1
  rw [parseUintLoop_eq (2 ^ b - 1) hmax u 0 (Nat.zero_le _)]

theorem strip_eq_unsignedPart (s : GoString) :
    (if s.head? = some 43 then s.tail else if s.head? = some 45 then s.tail else s) =
      unsignedPart s := by
  unfold unsignedPart
  split_ifs <;> simp_all

theorem strip_eq_unsignedPart2 (s : GoString) :
    (if s.head? = some 45 ∨ s.head? = some 43 then s.tail else s) = unsignedPart s := by
  unfold unsignedPart
  split_ifs <;> simp_all

theorem digitPrefix_length_le (u : GoString) : (digitPrefix u).length ≤ u.length := by
  induction u with
  | nil => simp [digitPrefix]
  | cons c t ih =>
    by_cases hc : isDigit c
    · rw [digitPrefix_cons_digit c t hc]
      simpa using ih
    · rw [digitPrefix_cons_other c t hc]
      simp

theorem digitPrefix_idem (u : GoString) : digitPrefix (digitPrefix u) = digitPrefix u := by
  induction u with
  | nil => simp [digitPrefix]
  | cons c t ih =>
    by_cases hc : isDigit c
    · rw [digitPrefix_cons_digit c t hc, digitPrefix_cons_digit c _ hc, ih]
    · rw [digitPrefix_cons_other c t hc]
      simp [digitPrefix]

theorem decimal_prefix_lt (u : GoString) :
    decimalFrom 0 (digitPrefix u) < 10 ^ u.length := by
  have h1 := decimalFrom_lt (digitPrefix u) 0 (digitPrefix_idem u)
  have h2 : 10 ^ (digitPrefix u).length ≤ 10 ^ u.length :=
    Nat.pow_le_pow_right (by decide) (digitPrefix_length_le u)
  omega

theorem ParseInt_eq (P : Platform) (s : GoString) (hs : s ≠ []) :
    (int P.intSize (ParseInt P.intSize s).1, (ParseInt P.intSize s).2) = atoiSpec P s := by
  unfold ParseInt atoiSpec
  simp only [hs, if_false]
  rw [strip_eq_unsignedPart, ParseUint_eq _ (by cases P <;> decide)]
  generalize hv : decimalFrom 0 (digitPrefix (unsignedPart s)) = v
  by_cases hu : unsignedPart s = []
  · cases P <;> simp [hu, int, Platform.intSize]
  · by_cases hp : digitPrefix (unsignedPart s) = unsignedPart s <;>
      by_cases hneg : s.head? = some 45 <;>
      by_cases hle : v ≤ 2 ^ P.intSize - 1 <;>
      cases P <;>
      simp only [Platform.intSize] at hle <;>
      simp only [Platform.intSize, hu, hp, hneg, hle, if_true, if_false, ne_eq,
        not_true_eq_false, not_false_eq_true, true_and, false_and, and_true, and_false,
        Option.isSome_none, Option.isSome_some, Bool.false_eq_true, not_true, not_false_iff,
        gt_iff_lt, ge_iff_le, reduceCtorEq] <;>
      (try split_ifs) <;>
      (try simp only [int, int64, Prod.mk.injEq, and_true, true_and]) <;>
      (try omega)
    all_goals (rename_i h1 _; exact absurd h1 (by decide))

theorem Atoi_eq_atoiSpec (P : Platform) (s : GoString) (hs : ∀ c ∈ s, c < 256) :
    Atoi P s = atoiSpec P s := by
  by_cases hnil : s = []
  · subst hnil
    cases P <;> decide
  · by_cases hfast : (P.intSize = 32 ∧ (0 < s.length ∧ s.length < 10)) ∨
        (P.intSize = 64 ∧ (0 < s.length ∧ s.length < 19))
    · have hu256 : ∀ c ∈ unsignedPart s, c < 256 := by
        intro c hc
        unfold unsignedPart at hc
        split_ifs at hc
        · exact hs c (List.mem_of_mem_tail hc)
        · exact hs c hc
      have hlen : (unsignedPart s).length ≤ s.length := by
        unfold unsignedPart
        split_ifs <;> simp
      have hv := decimal_prefix_lt (unsignedPart s)
      have hfl := atoiFastLoop_eq (unsignedPart s) hu256 0
      simp only [Nat.cast_zero] at hfl
      unfold Atoi atoiSpec
      simp only [hfast, if_true]
      rw [strip_eq_unsignedPart2, hfl]
      have hpow : P.intSize = 32 ∧ 10 ^ (unsignedPart s).length ≤ 10 ^ 9 ∨
          P.intSize = 64 ∧ 10 ^ (unsignedPart s).length ≤ 10 ^ 18 := by
        rcases hfast with ⟨hP, _, hl⟩ | ⟨hP, _, hl⟩
        · exact Or.inl ⟨hP, Nat.pow_le_pow_right (by decide) (by omega)⟩
        · exact Or.inr ⟨hP, Nat.pow_le_pow_right (by decide) (by omega)⟩
      by_cases hu : unsignedPart s = []
      · have hsigned : s.head? = some 45 ∨ s.head? = some 43 := by
          unfold unsignedPart at hu
          split_ifs at hu with h
          · tauto
          · exact absurd hu hnil
        simp [hu, hsigned]
      · have hlen1 : ¬ (unsignedPart s).length < 1 := by
          have := List.length_pos.mpr hu
          omega
        generalize hvv : decimalFrom 0 (digitPrefix (unsignedPart s)) = v at hv
        by_cases hp : digitPrefix (unsignedPart s) = unsignedPart s
        · rw [hp] at hvv
          rcases hpow with ⟨hP, hpw⟩ | ⟨hP, hpw⟩ <;>
            by_cases hneg : s.head? = some 45 <;>
            simp only [hP, hu, hp, hneg, hlen1, hvv, if_true, if_false, and_false, ne_eq,
              not_true_eq_false, not_false_eq_true, true_and, false_and, and_true] <;>
            (try split_ifs) <;>
            (try simp only [Prod.mk.injEq, and_true, true_and, reduceCtorEq, and_false]) <;>
            (try omega)
        · rcases hpow with ⟨hP, hpw⟩ | ⟨hP, hpw⟩ <;>
            simp only [hP, hu, hp, hlen1, if_true, if_false, and_false, ne_eq,
              not_true_eq_false, not_false_eq_true, true_and, false_and, and_true] <;>
            (try split_ifs) <;>
            (try simp only [Prod.mk.injEq, and_true, true_and, reduceCtorEq, and_false]) <;>
            (try omega)
    · unfold Atoi
      simp only [hfast, if_false]
      exact ParseInt_eq P s hnil

theorem atoiSpec_error (P : Platform) (s : GoString) :
    ((atoiSpec P s).2 = some .syntaxError → (atoiSpec P s).1 = 0) ∧
    ((atoiSpec P s).2 = some .rangeError →
      (s.head? = some 45 ∧ (atoiSpec P s).1 = -2 ^ (P.intSize - 1)) ∨
      (s.head? ≠ some 45 ∧ (atoiSpec P s).1 = 2 ^ (P.intSize - 1) - 1)) := by
  unfold atoiSpec
  simp only
  split_ifs <;> simp_all

theorem Atoi_error (P : Platform) (s : GoString) :
    ((Atoi P s).2 = some .syntaxError → (Atoi P s).1 = 0) ∧
    ((Atoi P s).2 = some .rangeError →
      (s.head? = some 45 ∧ (Atoi P s).1 = -2 ^ (P.intSize - 1)) ∨
      (s.head? ≠ some 45 ∧ (Atoi P s).1 = 2 ^ (P.intSize - 1) - 1)) := by
  by_cases hnil : s = []
  · subst hnil
    cases P <;> decide
  · by_cases hfast : (P.intSize = 32 ∧ (0 < s.length ∧ s.length < 10)) ∨
        (P.intSize = 64 ∧ (0 < s.length ∧ s.length < 19))
    · unfold Atoi
      simp only [hfast, if_true]
      split_ifs <;> (try split) <;> simp
    · have h : Atoi P s = atoiSpec P s := by
        unfold Atoi
        simp only [hfast, if_false]
        exact ParseInt_eq P s hnil
      rw [h]
      exact atoiSpec_error P s

theorem uint16_error_values (P : Platform) :
    uint16 0 = 0 ∧ uint16 (-2 ^ (P.intSize - 1)) = 0 ∧
      uint16 (2 ^ (P.intSize - 1) - 1) = 65535 := by
  cases P <;> decide

theorem standardTags_port_value (P : Platform) (req : Request) (v : TagValue) :
    ("peer.port", v) ∈ standardTags P req ↔
      ((SplitHostPort req.URL.Host).2.2 = none ∧ (Atoi P (portString req)).2 ≠ none ∧
        v = .u16 (uint16 (Atoi P (portString req)).1)) := by
  unfold standardTags portString
  rcases hs : SplitHostPort req.URL.Host with ⟨host, port, _ | e⟩
  · rcases ha : Atoi P port with ⟨n, _ | e2⟩ <;> simp [ha]
  · simp

theorem atoiSpec_invalid (P : Platform) (s : GoString) (h : ¬ validDecimal s) :
    atoiSpec P s =
      if decimalFrom 0 (digitPrefix (unsignedPart s)) > 2 ^ P.intSize - 1 then
        (if s.head? = some 45 then (-2 ^ (P.intSize - 1), some .rangeError)
          else (2 ^ (P.intSize - 1) - 1, some .rangeError))
      else (0, some .syntaxError) := by
  unfold validDecimal at h
  unfold atoiSpec
  simp only
  by_cases hu : unsignedPart s = []
  · simp [hu, digitPrefix, decimalFrom]
  · have hp : digitPrefix (unsignedPart s) ≠ unsignedPart s := fun hp => h ⟨hu, hp⟩
    generalize decimalFrom 0 (digitPrefix (unsignedPart s)) = v
    by_cases hneg : s.head? = some 45 <;>
      cases P <;>
      simp only [Platform.intSize, hu, hp, hneg, if_true, if_false, ne_eq, not_true_eq_false,
        not_false_eq_true, true_and, false_and] <;>
      split_ifs <;>
      first | rfl | omega

theorem atoiSpec_valid (P : Platform) (s : GoString) (h : validDecimal s) :
    atoiSpec P s =
      if s.head? ≠ some 45 ∧ decimalFrom 0 (unsignedPart s) ≥ 2 ^ (P.intSize - 1) then
        (2 ^ (P.intSize - 1) - 1, some .rangeError)
      else if s.head? = some 45 ∧ decimalFrom 0 (unsignedPart s) > 2 ^ (P.intSize - 1) then
        (-2 ^ (P.intSize - 1), some .rangeError)
      else (if s.head? = some 45 then -(decimalFrom 0 (unsignedPart s) : Int)
        else (decimalFrom 0 (unsignedPart s) : Int), none) := by
  unfold validDecimal at h
  unfold atoiSpec
  simp only [h.1, h.2, if_false, ne_eq, not_true_eq_false, false_and]

/-! ## The value of the peer-port tag -/

/-- C10, as stated, fails: the port string `99999999999999999999x` is not
decimal syntax, yet for the host `example.com:99999999999999999999x` the
peer-port tag is set to 65535, not 0: the parse meets the overflow of the
leading digits before the letter and returns the largest `int` with a range
error, on the 64-bit and on the 32-bit platform. -/
theorem peer_port_invalid_syntax_65535 :
    ¬ validDecimal (bytes "99999999999999999999x") ∧
    SplitHostPort (bytes "example.com:99999999999999999999x") =
      (bytes "example.com", bytes "99999999999999999999x", none) ∧
    Atoi .bits64 (bytes "99999999999999999999x") = (2 ^ 63 - 1, some .rangeError) ∧
    Atoi .bits32 (bytes "99999999999999999999x") = (2 ^ 31 - 1, some .rangeError) ∧
    (attachSpanTags noopEnv noopSpan (reqTo (bytes "example.com:99999999999999999999x"))).tags =
      [("http.method", .str (bytes "GET")),
       ("http.url", .str (bytes "http://example.com:99999999999999999999x/")),
       ("peer.hostname", .str (bytes "example.com")),
       ("peer.port", .u16 65535)] ∧
    ("peer.port", TagValue.u16 65535) ∈
      standardTags .bits32 (reqTo (bytes "example.com:99999999999999999999x")) ∧
    ("peer.port", TagValue.u16 0) ∉
      standardTags .bits64 (reqTo (bytes "example.com:99999999999999999999x")) := by
  refine ⟨by decide, by decide, by decide, by decide, by decide, by decide, by decide⟩

/-- C10, amended: a peer-port tag in the standard tags means the parse of the
port string failed, and its value is the 16-bit truncation of the integer the
parse returned, 0 or 65535.  For a port string of bytes that follows a
successful split: when it is not decimal syntax (empty, a bare sign, or with a
byte that is not a digit) the tag is set, to 65535 when there is no minus sign
and the leading digits exceed the largest unsigned value of the `int` width,
and to 0 otherwise; when it is decimal syntax with no minus sign and a value
too large for `int` the tag is set to 65535; when it is decimal syntax with a
minus sign and a value below the smallest `int` the tag is set to 0; for every
other decimal string the parse succeeds and no tag is set. -/
theorem peer_port_value (P : Platform) (req : Request) :
    (∀ v, ("peer.port", v) ∈ standardTags P req →
      (Atoi P (portString req)).2 ≠ none ∧
      v = .u16 (uint16 (Atoi P (portString req)).1) ∧
      (v = .u16 0 ∨ v = .u16 65535)) ∧
    ((SplitHostPort req.URL.Host).2.2 = none → (∀ c ∈ portString req, c < 256) →
      (¬ validDecimal (portString req) →
        ("peer.port",
          TagValue.u16 (if (portString req).head? ≠ some 45 ∧
              decimalFrom 0 (digitPrefix (unsignedPart (portString req))) > 2 ^ P.intSize - 1
            then 65535 else 0)) ∈ standardTags P req) ∧
      (validDecimal (portString req) → (portString req).head? ≠ some 45 →
        decimalFrom 0 (unsignedPart (portString req)) ≥ 2 ^ (P.intSize - 1) →
        ("peer.port", TagValue.u16 65535) ∈ standardTags P req) ∧
      (validDecimal (portString req) → (portString req).head? = some 45 →
        decimalFrom 0 (unsignedPart (portString req)) > 2 ^ (P.intSize - 1) →
        ("peer.port", TagValue.u16 0) ∈ standardTags P req) ∧
      (validDecimal (portString req) →
        ¬ ((portString req).head? ≠ some 45 ∧
          decimalFrom 0 (unsignedPart (portString req)) ≥ 2 ^ (P.intSize - 1)) →
        ¬ ((portString req).head? = some 45 ∧
          decimalFrom 0 (unsignedPart (portString req)) > 2 ^ (P.intSize - 1)) →
        ¬ ∃ v, ("peer.port", v) ∈ standardTags P req)) := by
  have hu := uint16_error_values P
  constructor
  · intro v hv
    obtain ⟨_, herr, hval⟩ := (standardTags_port_value P req v).1 hv
    refine ⟨herr, hval, ?_⟩
    have he := Atoi_error P (portString req)
    rcases hx : (Atoi P (portString req)).2 with _ | e
    · exact absurd hx herr
    · cases e with
      | syntaxError =>
        rw [he.1 hx] at hval
        exact Or.inl (by rw [hval, hu.1])
      | rangeError =>
        rcases he.2 hx with ⟨_, h1⟩ | ⟨_, h1⟩
        · rw [h1] at hval
          exact Or.inl (by rw [hval, hu.2.1])
        · rw [h1] at hval
          exact Or.inr (by rw [hval, hu.2.2])
  · intro hsplit hb
    have hA := Atoi_eq_atoiSpec P (portString req) hb
    refine ⟨?_, ?_, ?_, ?_⟩
    · intro hinv
      rw [standardTags_port_value, hA, atoiSpec_invalid P _ hinv]
      refine ⟨hsplit, ?_, ?_⟩
      · split_ifs <;> simp
      · by_cases hneg : (portString req).head? = some 45 <;>
          by_cases hov : decimalFrom 0 (digitPrefix (unsignedPart (portString req))) >
            2 ^ P.intSize - 1 <;>
          simp [hneg, hov, hu.1, hu.2.1, hu.2.2]
    · intro hval hneg hbig
      rw [standardTags_port_value, hA, atoiSpec_valid P _ hval]
      simp [hsplit, hneg, hbig, hu.2.2]
    · intro hval hneg hbig
      rw [standardTags_port_value, hA, atoiSpec_valid P _ hval]
      simp [hsplit, hneg, hbig, hu.2.1]
    · intro hval h1 h2
      rintro ⟨v, hv⟩
      rw [standardTags_port_value, hA, atoiSpec_valid P _ hval] at hv
      simp only [h1, h2, if_false] at hv
      exact hv.2.1 rfl

theorem peer_port_value_witness :
    ("peer.port", TagValue.u16 0) ∈ standardTags .bits64 (reqTo (bytes "example.com:")) ∧
    ("peer.port", TagValue.u16 0) ∈ standardTags .bits64 (reqTo (bytes "example.com:http")) ∧
    ("peer.port", TagValue.u16 65535) ∈
      standardTags .bits64 (reqTo (bytes "example.com:20000000000000000000z")) ∧
    ("peer.port", TagValue.u16 65535) ∈
      standardTags .bits64 (reqTo (bytes "example.com:99999999999999999999")) ∧
    ("peer.port", TagValue.u16 0) ∈
      standardTags .bits64 (reqTo (bytes "example.com:-99999999999999999999")) ∧
    (¬ ∃ v, ("peer.port", v) ∈ standardTags .bits64 (reqTo (bytes "example.com:8080"))) ∧
    (TagValue.u16 0 = TagValue.u16 0 ∨ TagValue.u16 0 = TagValue.u16 65535) :=
  ⟨((peer_port_value .bits64 (reqTo (bytes "example.com:"))).2 (by decide) (by decide)).1
      (by decide),
   ((peer_port_value .bits64 (reqTo (bytes "example.com:http"))).2 (by decide) (by decide)).1
      (by decide),
   ((peer_port_value .bits64 (reqTo (bytes "example.com:20000000000000000000z"))).2
      (by decide) (by decide)).1 (by decide),
   ((peer_port_value .bits64 (reqTo (bytes "example.com:99999999999999999999"))).2
      (by decide) (by decide)).2.1 (by decide) (by decide) (by decide),
   ((peer_port_value .bits64 (reqTo (bytes "example.com:-99999999999999999999"))).2
      (by decide) (by decide)).2.2.1 (by decide) (by decide) (by decide),
   ((peer_port_value .bits64 (reqTo (bytes "example.com:8080"))).2
      (by decide) (by decide)).2.2.2 (by decide) (by decide) (by decide),
   ((peer_port_value .bits64 (reqTo (bytes "example.com:http"))).1 (.u16 0) (by decide)).2.2⟩

end droitrace
